import Mathlib

/-!
# Verification of `runner/litechat.py`

A shallow embedding of the LiteChat runner script: a linear pipeline that
downloads a zip archive, extracts it into a working directory, deletes the
archive, and serves the directory over HTTP with SPA fallback routing.

The filesystem is modelled as an association list from paths to nodes
(regular files with byte content, or directories).  The working directory
`litechat-app` is the root of this map; `translate_path` of the HTTP layer
is modelled as the identity embedding of request paths into the map's keys.
External effects whose outcome the script merely observes (the network
download, the archive's entry list, the bind call, hostname resolution) are
supplied by an oracle; everything else is translated directly from the
source.
-/

set_option autoImplicit false

namespace LiteChat

/-- A filesystem node: a regular file with its byte content, or a directory.
`os.path.exists` is true for both; only files have servable bytes. -/
inductive Node where
  | file (content : List Nat)
  | dir
  deriving DecidableEq, Repr

/-- The contents of the working directory: an association list from paths
(relative to the document root, in URL form such as `/index.html`) to nodes.
Later writes shadow earlier entries via `FS.write`. -/
abbrev FS := List (String × Node)

/-- Look a path up in the filesystem. -/
def FS.lookup : FS → String → Option Node
  | [], _ => none
  | (q, n) :: rest, p => if p = q then some n else FS.lookup rest p

/-- `os.remove` / deletion of one path (no-op when absent). -/
def FS.remove : FS → String → FS
  | [], _ => []
  | (q, n) :: rest, p => if q = p then FS.remove rest p else (q, n) :: FS.remove rest p

/-- Write (create or overwrite) a node at a path. -/
def FS.write (fs : FS) (p : String) (n : Node) : FS :=
  (p, n) :: FS.remove fs p

/-- Materialize a list of archive entries in order, later entries
overwriting earlier ones (`zipfile.ZipFile.extractall`). -/
def FS.writeAll (fs : FS) (es : List (String × Node)) : FS :=
  es.foldl (fun f e => FS.write f e.1 e.2) fs

/-- `os.path.exists(translate_path(p))`: true for files and directories. -/
def pathExists (fs : FS) (p : String) : Bool :=
  (FS.lookup fs p).isSome

/-- The byte content at a path when it is a regular file. -/
def fileAt (fs : FS) (p : String) : Option (List Nat) :=
  match FS.lookup fs p with
  | some (Node.file c) => some c
  | _ => none

/-- The path rewriting of `SPAHandler.do_GET` (litechat.py lines 41-43):
`if not os.path.exists(self.translate_path(self.path)): self.path = '/index.html'`. -/
def spaRewrite (fs : FS) (p : String) : String :=
  if pathExists fs p then p else "/index.html"

/-- The response of the underlying static-file logic. -/
inductive HttpResponse where
  /-- A 200 response carrying a regular file's exact bytes. -/
  | fileBytes (content : List Nat)
  /-- `SimpleHTTPRequestHandler`'s directory handling for the directory at
  the given path (a redirect to the slash form, the directory's own index
  document, or a generated listing) — in every case determined by that
  directory, not by the root entry document. -/
  | dirResponse (p : String)
  /-- A 404 response. -/
  | notFound
  deriving DecidableEq, Repr

/-- `SimpleHTTPRequestHandler.do_GET`: serve the file's bytes, a
directory-determined response, or 404. -/
def simpleDoGET (fs : FS) (p : String) : HttpResponse :=
  match FS.lookup fs p with
  | some (Node.file c) => HttpResponse.fileBytes c
  | some Node.dir => HttpResponse.dirResponse p
  | none => HttpResponse.notFound

/-- `SPAHandler.do_GET` (litechat.py lines 40-44): rewrite the path when it
does not exist, then delegate to `SimpleHTTPRequestHandler.do_GET`. -/
def spaDoGET (fs : FS) (p : String) : HttpResponse :=
  simpleDoGET fs (spaRewrite fs p)

/-- The archive's path inside the working directory
(`zip_path = os.path.join(temp_dir, 'litechat.zip')`). -/
def zipName : String := "litechat.zip"

/-- The command-line configuration: the optional positional `port`
(default 3000) and the `--host` flag. -/
structure Config where
  hostFlag : Bool
  port : Nat

/-- Outcome of `urlretrieve`: on success the downloaded bytes; on failure
the exception message and whatever partial file was left on disk. -/
inductive DownloadOutcome where
  | ok (bytes : List Nat)
  | err (leftover : Option (List Nat)) (msg : String)

/-- Outcome of `ZipFile(...)` + `extractall`: on success the archive's
entry list; on failure the entries materialized before the exception and
the exception message. -/
inductive ExtractOutcome where
  | ok (entries : List (String × Node))
  | err (extracted : List (String × Node)) (msg : String)

/-- Oracle for the external effects the script observes: the download, the
archive contents, the `HTTPServer` bind, and
`socket.gethostbyname(socket.gethostname())`. -/
structure Oracle where
  download : DownloadOutcome
  extract : ExtractOutcome
  bindOk : Bool
  bindMsg : String
  resolvedIp : String

/-- Terminal status of a run: blocked in `serve_forever` on the given bound
address and port (until killed externally), or `sys.exit(code)`. -/
inductive RunResult where
  | serving (boundHost : String) (port : Nat)
  | exited (code : Nat)
  deriving DecidableEq, Repr

/-- Observable state when the run terminates (or enters the serve loop):
whether the working directory exists, its contents, the lines printed to
each standard stream, and the terminal status. -/
structure RunOutcome where
  workdirMade : Bool
  finalFs : FS
  stdout : List String
  stderr : List String
  result : RunResult

/-- `host = '0.0.0.0' if args.host else 'localhost'` (litechat.py line 46). -/
def bindHost (hostFlag : Bool) : String :=
  if hostFlag then "0.0.0.0" else "localhost"

/-- The access message of litechat.py line 51: the f-string with the
resolved IP when `--host` is set, the loopback name otherwise. -/
def accessMessage (hostFlag : Bool) (ip : String) (port : Nat) : String :=
  if hostFlag then
    "http://" ++ ip ++ ":" ++ toString port ++ " (accessible from other devices)"
  else
    "http://localhost:" ++ toString port ++ " (local access only)"

/-- The `except` handler (litechat.py lines 56-60): remove the archive if
it still exists, print `Error: {e}` (via `print`, hence to stdout), and
`sys.exit(1)`. -/
def handleError (fs : FS) (out : List String) (msg : String) : RunOutcome :=
  let fs1 := if pathExists fs zipName then FS.remove fs zipName else fs
  { workdirMade := true
    finalFs := fs1
    stdout := out ++ ["Error: " ++ msg]
    stderr := []
    result := RunResult.exited 1 }

/-- The whole script, from `os.makedirs` to `serve_forever` or `sys.exit`.
`fs0` is the prior content of the working directory (it is reused across
runs and never cleared).  `os.makedirs(..., exist_ok=True)`, `os.chdir`
and the pre-try progress print are modelled as always succeeding, as is
`os.remove` on an existing path. -/
def run (cfg : Config) (o : Oracle) (fs0 : FS) : RunOutcome :=
  let out0 := ["Downloading LiteChat release..."]
  match o.download with
  | DownloadOutcome.err leftover msg =>
    let fs1 := match leftover with
      | some b => FS.write fs0 zipName (Node.file b)
      | none => fs0
    handleError fs1 out0 msg
  | DownloadOutcome.ok bytes =>
    let fs1 := FS.write fs0 zipName (Node.file bytes)
    let out1 := out0 ++ ["Download complete. Extracting..."]
    match o.extract with
    | ExtractOutcome.err extracted msg =>
      handleError (FS.writeAll fs1 extracted) out1 msg
    | ExtractOutcome.ok entries =>
      let fs2 := FS.remove (FS.writeAll fs1 entries) zipName
      let out2 := out1 ++ ["Extraction complete."]
      if o.bindOk then
        { workdirMade := true
          finalFs := fs2
          stdout := out2 ++
            ["LiteChat is running at " ++
              accessMessage cfg.hostFlag o.resolvedIp cfg.port]
          stderr := []
          result := RunResult.serving (bindHost cfg.hostFlag) cfg.port }
      else
        handleError fs2 out2 o.bindMsg

theorem FS.lookup_remove_self (fs : FS) (p : String) :
    FS.lookup (FS.remove fs p) p = none := by
  induction fs with
  | nil => rfl
  | cons e rest ih =>
    obtain ⟨q, n⟩ := e
    by_cases h : q = p
    · simp only [FS.remove, if_pos h]
      exact ih
    · simp only [FS.remove, if_neg h, FS.lookup]
      rw [if_neg (fun he => h he.symm)]
      exact ih

theorem FS.lookup_remove_ne (fs : FS) {p q : String} (h : q ≠ p) :
    FS.lookup (FS.remove fs p) q = FS.lookup fs q := by
  induction fs with
  | nil => rfl
  | cons e rest ih =>
    obtain ⟨r, n⟩ := e
    by_cases hr : r = p
    · subst hr
      simp only [FS.remove, if_pos rfl, FS.lookup]
      rw [if_neg h]
      exact ih
    · simp only [FS.remove, if_neg hr, FS.lookup]
      by_cases hq : q = r
      · rw [if_pos hq, if_pos hq]
      · rw [if_neg hq, if_neg hq]
        exact ih

theorem pathExists_remove_self (fs : FS) (p : String) :
    pathExists (FS.remove fs p) p = false := by
  unfold pathExists
  rw [FS.lookup_remove_self]
  rfl

theorem FS.lookup_write_self (fs : FS) (p : String) (n : Node) :
    FS.lookup (FS.write fs p n) p = some n := by
  unfold FS.write FS.lookup
  rw [if_pos rfl]

theorem FS.lookup_cons (r : String) (n : Node) (rest : FS) (q : String) :
    FS.lookup ((r, n) :: rest) q = if q = r then some n else FS.lookup rest q := rfl

theorem FS.lookup_write_ne (fs : FS) {p q : String} (n : Node) (h : q ≠ p) :
    FS.lookup (FS.write fs p n) q = FS.lookup fs q := by
  unfold FS.write
  rw [FS.lookup_cons, if_neg h]
  exact FS.lookup_remove_ne fs h

theorem pathExists_write_mono (fs : FS) (p q : String) (n : Node)
    (h : pathExists fs q = true) :
    pathExists (FS.write fs p n) q = true := by
  by_cases hq : q = p
  · subst hq
    unfold pathExists
    rw [FS.lookup_write_self]
    rfl
  · unfold pathExists
    rw [FS.lookup_write_ne fs n hq]
    exact h

theorem pathExists_writeAll_mono (es : List (String × Node)) (fs : FS) (q : String)
    (h : pathExists fs q = true) :
    pathExists (FS.writeAll fs es) q = true := by
  induction es generalizing fs with
  | nil => exact h
  | cons e rest ih =>
    obtain ⟨p, n⟩ := e
    exact ih (FS.write fs p n) (pathExists_write_mono fs p q n h)

theorem pathExists_writeAll_of_mem (es : List (String × Node))
    (p : String) (n : Node) :
    (p, n) ∈ es → ∀ fs : FS, pathExists (FS.writeAll fs es) p = true := by
  induction es with
  | nil => intro h; cases h
  | cons e rest ih =>
    intro h fs
    obtain ⟨q, m⟩ := e
    rcases List.mem_cons.mp h with hh | ht
    · have hq : p = q := congrArg Prod.fst hh
      subst hq
      refine pathExists_writeAll_mono rest (FS.write fs p m) p ?_
      unfold pathExists
      rw [FS.lookup_write_self]
      rfl
    · exact ih ht (FS.write fs q m)

theorem handleError_result (fs : FS) (out : List String) (msg : String) :
    (handleError fs out msg).result = RunResult.exited 1 := rfl

theorem handleError_stderr (fs : FS) (out : List String) (msg : String) :
    (handleError fs out msg).stderr = [] := rfl

theorem handleError_stdout (fs : FS) (out : List String) (msg : String) :
    (handleError fs out msg).stdout = out ++ ["Error: " ++ msg] := rfl

theorem handleError_zip_absent (fs : FS) (out : List String) (msg : String) :
    pathExists (handleError fs out msg).finalFs zipName = false := by
  unfold handleError
  by_cases h : pathExists fs zipName = true
  · simp only [if_pos h]
    exact pathExists_remove_self fs zipName
  · simp only [if_neg h]
    exact Bool.not_eq_true _ ▸ h

theorem handleError_frame (fs : FS) (out : List String) (msg : String)
    {q : String} (h : q ≠ zipName) :
    FS.lookup (handleError fs out msg).finalFs q = FS.lookup fs q := by
  unfold handleError
  by_cases he : pathExists fs zipName = true
  · simp only [if_pos he]
    exact FS.lookup_remove_ne fs h
  · simp only [if_neg he]

/-- Default invocation: no flags, port 3000. -/
def exCfg : Config := ⟨false, 3000⟩

/-- Invocation with `--host` and an explicit port. -/
def exCfgHost : Config := ⟨true, 8080⟩

/-- An oracle in which the download succeeds and extraction fails before
materializing any entry. -/
def exFailOracle : Oracle :=
  ⟨DownloadOutcome.ok [80, 75], ExtractOutcome.err [] "boom", true,
    "bind failed", "192.168.1.7"⟩

/-- An oracle in which the download succeeds and extraction fails after
materializing one entry. -/
def exPartialOracle : Oracle :=
  ⟨DownloadOutcome.ok [80, 75],
    ExtractOutcome.err [("/app.js", Node.file [42])] "disk full", true,
    "bind failed", "192.168.1.7"⟩

/-- An oracle in which every stage succeeds and the archive holds one
entry, the entry document. -/
def okOracle : Oracle :=
  ⟨DownloadOutcome.ok [80, 75],
    ExtractOutcome.ok [("/index.html", Node.file [60, 104])], true,
    "unused", "192.168.1.7"⟩

/-- An oracle in which every stage succeeds but the downloaded archive has
no entries at all (a valid empty zip). -/
def emptyZipOracle : Oracle :=
  ⟨DownloadOutcome.ok [80, 75], ExtractOutcome.ok [], true,
    "unused", "192.168.1.7"⟩

/-- **C3.** When the download succeeded and extraction fails, the archive
file is removed by the `except` handler and the process exits with
status 1. -/
theorem C3_extract_fail_cleanup (cfg : Config) (o : Oracle) (fs0 : FS)
    (b : List Nat) (ex : List (String × Node)) (m : String)
    (hd : o.download = DownloadOutcome.ok b)
    (he : o.extract = ExtractOutcome.err ex m) :
    (run cfg o fs0).result = RunResult.exited 1 ∧
    pathExists (run cfg o fs0).finalFs zipName = false := by
  unfold run
  rw [hd, he]
  exact ⟨handleError_result _ _ _, handleError_zip_absent _ _ _⟩

/-- **C3 (witness).** Concrete instance: download ok, extraction raises
`boom`, archive gone, exit 1. -/
theorem C3_extract_fail_cleanup_witness :
    (run exCfg exFailOracle []).result = RunResult.exited 1 ∧
    pathExists (run exCfg exFailOracle []).finalFs zipName = false :=
  C3_extract_fail_cleanup exCfg exFailOracle [] [80, 75] [] "boom" rfl rfl

/-- **C4.** Invariant: the archive never outlives the fetch+extract stage:
on every run — every configuration, every oracle outcome, every prior
directory content — `litechat.zip` is absent from the working directory
once the run has reached its terminal state (the serve loop or an exit). -/
theorem C4_archive_absent (cfg : Config) (o : Oracle) (fs0 : FS) :
    pathExists (run cfg o fs0).finalFs zipName = false := by
  obtain ⟨d, e, bo, bm, ip⟩ := o
  cases d with
  | err leftover m =>
    cases leftover with
    | none => exact handleError_zip_absent _ _ _
    | some b => exact handleError_zip_absent _ _ _
  | ok b =>
    cases e with
    | err ex m => exact handleError_zip_absent _ _ _
    | ok entries =>
      cases bo with
      | false => exact handleError_zip_absent _ _ _
      | true => exact pathExists_remove_self _ _

/-- **C5 (counterexample).** The error message is emitted with `print`,
which writes to standard output: in a failing run nothing at all is
printed to stderr, contrary to the claim that the message goes to the
error-appropriate stream. -/
theorem C5_counterexample :
    (run exCfg exFailOracle []).result = RunResult.exited 1 ∧
    (run exCfg exFailOracle []).stderr = [] ∧
    "Error: boom" ∈ (run exCfg exFailOracle []).stdout := by
  refine ⟨rfl, rfl, ?_⟩
  show "Error: boom" ∈
    ["Downloading LiteChat release...", "Download complete. Extracting...",
      "Error: boom"]
  simp

/-- **C5 (amended).** Every run either reaches `serve_forever` (and only
external termination can end it) or exits with status 1 with a message
`Error: {e}` as the last line of *standard output*; nothing is ever
written to stderr, and no run exits with status 0 on its own. -/
theorem C5_error_exit (cfg : Config) (o : Oracle) (fs0 : FS) :
    (run cfg o fs0).stderr = [] ∧
    ((run cfg o fs0).result = RunResult.serving (bindHost cfg.hostFlag) cfg.port ∨
      ((run cfg o fs0).result = RunResult.exited 1 ∧
        ∃ m, (run cfg o fs0).stdout.getLast? = some ("Error: " ++ m))) := by
  obtain ⟨d, e, bo, bm, ip⟩ := o
  cases d with
  | err leftover m =>
    cases leftover with
    | none =>
      refine ⟨rfl, Or.inr ⟨rfl, m, ?_⟩⟩
      exact List.getLast?_concat _
    | some b =>
      refine ⟨rfl, Or.inr ⟨rfl, m, ?_⟩⟩
      exact List.getLast?_concat _
  | ok b =>
    cases e with
    | err ex m =>
      refine ⟨rfl, Or.inr ⟨rfl, m, ?_⟩⟩
      exact List.getLast?_concat _
    | ok entries =>
      cases bo with
      | false =>
        refine ⟨rfl, Or.inr ⟨rfl, bm, ?_⟩⟩
        exact List.getLast?_concat _
      | true => exact ⟨rfl, Or.inl rfl⟩

/-- **C9.** No rollback: when extraction fails partway, the `except`
handler removes only the archive file — at every other path the final
filesystem agrees with the state at the moment extraction stopped, so
every partially-extracted entry is left in place. -/
theorem C9_no_rollback (cfg : Config) (o : Oracle) (fs0 : FS)
    (b : List Nat) (ex : List (String × Node)) (m : String)
    (hd : o.download = DownloadOutcome.ok b)
    (he : o.extract = ExtractOutcome.err ex m) :
    (∀ q : String, q ≠ zipName →
      FS.lookup (run cfg o fs0).finalFs q =
        FS.lookup (FS.writeAll (FS.write fs0 zipName (Node.file b)) ex) q) ∧
    pathExists (run cfg o fs0).finalFs zipName = false ∧
    (run cfg o fs0).result = RunResult.exited 1 := by
  unfold run
  rw [hd, he]
  exact ⟨fun q hq => handleError_frame _ _ _ hq,
    handleError_zip_absent _ _ _, handleError_result _ _ _⟩

/-- **C9 (witness).** Concrete instance: one entry `/app.js` was extracted
before the failure; it survives and only the archive is removed. -/
theorem C9_no_rollback_witness :
    (∀ q : String, q ≠ zipName →
      FS.lookup (run exCfg exPartialOracle []).finalFs q =
        FS.lookup
          (FS.writeAll (FS.write [] zipName (Node.file [80, 75]))
            [("/app.js", Node.file [42])]) q) ∧
    pathExists (run exCfg exPartialOracle []).finalFs zipName = false ∧
    (run exCfg exPartialOracle []).result = RunResult.exited 1 :=
  C9_no_rollback exCfg exPartialOracle [] [80, 75]
    [("/app.js", Node.file [42])] "disk full" rfl rfl

/-- Whether the first character list starts the second. -/
def hasPre : List Char → List Char → Bool
  | [], _ => true
  | _ :: _, [] => false
  | a :: as, b :: bs => a == b && hasPre as bs

/-- Whether the first character list occurs contiguously in the second. -/
def hasSub (pat : List Char) : List Char → Bool
  | [] => pat.isEmpty
  | c :: rest => hasPre pat (c :: rest) || hasSub pat rest

/-- Whether `pat` occurs as a contiguous substring of `s`. -/
def strContains (s pat : String) : Bool := hasSub pat.data s.data

/-- Whether a printed line is the access-URL message of litechat.py
line 52. -/
def isAccessLine (s : String) : Bool :=
  hasPre ("LiteChat is running at ").data s.data

theorem hasPre_self_append (p t : List Char) : hasPre p (p ++ t) = true := by
  induction p with
  | nil => rfl
  | cons a as ih => simp [hasPre, ih]

theorem hasSub_of_hasPre (pat l : List Char) (h : hasPre pat l = true) :
    hasSub pat l = true := by
  cases l with
  | nil =>
    cases pat with
    | nil => rfl
    | cons a as => exact absurd h (by simp [hasPre])
  | cons c rest =>
    unfold hasSub
    rw [h]
    rfl

theorem hasSub_append_left (pat l xs : List Char) (h : hasSub pat l = true) :
    hasSub pat (xs ++ l) = true := by
  induction xs with
  | nil => exact h
  | cons x xs ih =>
    show (hasPre pat (x :: (xs ++ l)) || hasSub pat (xs ++ l)) = true
    rw [ih, Bool.or_true]

theorem hasSub_mid (pat xs ys : List Char) :
    hasSub pat (xs ++ (pat ++ ys)) = true :=
  hasSub_append_left pat (pat ++ ys) xs
    (hasSub_of_hasPre pat (pat ++ ys) (hasPre_self_append pat ys))

theorem isAccessLine_append (s : String) :
    isAccessLine ("LiteChat is running at " ++ s) = true := by
  unfold isAccessLine
  rw [String.data_append]
  exact hasPre_self_append _ _

/-- **C6.** The bind address (litechat.py line 46) is the loopback name
`localhost` exactly when `--host` is unset and the wildcard `0.0.0.0`
exactly when it is set; a run whose stages all succeed enters the serve
loop bound to that address and the configured port.  (Refusing
non-loopback connections is the operating-system meaning of a loopback
bind.) -/
theorem C6_bind_address (cfg : Config) (o : Oracle) (fs0 : FS)
    (b : List Nat) (entries : List (String × Node))
    (hd : o.download = DownloadOutcome.ok b)
    (he : o.extract = ExtractOutcome.ok entries)
    (hb : o.bindOk = true) :
    (run cfg o fs0).result = RunResult.serving (bindHost cfg.hostFlag) cfg.port ∧
    bindHost false = "localhost" ∧ bindHost true = "0.0.0.0" := by
  unfold run
  rw [hd, he, hb]
  exact ⟨rfl, rfl, rfl⟩

/-- **C6 (witness).** Concrete instance: default flags serve on
`localhost:3000`. -/
theorem C6_bind_address_witness :
    (run exCfg okOracle []).result =
      RunResult.serving (bindHost exCfg.hostFlag) exCfg.port ∧
    bindHost false = "localhost" ∧ bindHost true = "0.0.0.0" :=
  C6_bind_address exCfg okOracle [] [80, 75]
    [("/index.html", Node.file [60, 104])] rfl rfl rfl

theorem run_success_stdout (cfg : Config) (o : Oracle) (fs0 : FS)
    (b : List Nat) (entries : List (String × Node))
    (hd : o.download = DownloadOutcome.ok b)
    (he : o.extract = ExtractOutcome.ok entries)
    (hb : o.bindOk = true) :
    (run cfg o fs0).stdout =
      ["Downloading LiteChat release...", "Download complete. Extracting...",
        "Extraction complete.",
        "LiteChat is running at " ++
          accessMessage cfg.hostFlag o.resolvedIp cfg.port] := by
  unfold run
  rw [hd, he, hb]
  rfl

theorem accessMessage_true_contains (ip : String) (port : Nat) :
    strContains (accessMessage true ip port) ip = true := by
  show strContains
    ("http://" ++ ip ++ ":" ++ toString port ++
      " (accessible from other devices)") ip = true
  unfold strContains
  simp only [String.data_append, List.append_assoc]
  exact hasSub_mid _ _ _

theorem accessMessage_false_contains (ip : String) (port : Nat) :
    strContains (accessMessage false ip port) "localhost" = true := by
  show strContains
    ("http://localhost:" ++ toString port ++ " (local access only)")
    "localhost" = true
  unfold strContains
  simp only [String.data_append, List.append_assoc]
  have hsplit :
      (['h', 't', 't', 'p', ':', '/', '/', 'l', 'o', 'c', 'a', 'l', 'h',
        'o', 's', 't', ':'] : List Char) =
      ['h', 't', 't', 'p', ':', '/', '/'] ++
        (['l', 'o', 'c', 'a', 'l', 'h', 'o', 's', 't'] ++ [':']) := rfl
  rw [hsplit, List.append_assoc, List.append_assoc]
  exact hasSub_mid _ _ _

/-- **C7.** Every run reaching the serve stage prints exactly one
access-URL line, as its final output: with `--host` set the message embeds
the machine's resolved network address (the result of
`gethostbyname(gethostname())`), and with `--host` unset it embeds the
loopback name `localhost`. -/
theorem C7_access_message (cfg : Config) (o : Oracle) (fs0 : FS)
    (b : List Nat) (entries : List (String × Node))
    (hd : o.download = DownloadOutcome.ok b)
    (he : o.extract = ExtractOutcome.ok entries)
    (hb : o.bindOk = true) :
    ((run cfg o fs0).stdout.filter isAccessLine).length = 1 ∧
    (run cfg o fs0).stdout.getLast? =
      some ("LiteChat is running at " ++
        accessMessage cfg.hostFlag o.resolvedIp cfg.port) ∧
    (cfg.hostFlag = true →
      strContains (accessMessage cfg.hostFlag o.resolvedIp cfg.port)
        o.resolvedIp = true) ∧
    (cfg.hostFlag = false →
      strContains (accessMessage cfg.hostFlag o.resolvedIp cfg.port)
        "localhost" = true) := by
  have hout := run_success_stdout cfg o fs0 b entries hd he hb
  have h1 : isAccessLine "Downloading LiteChat release..." = false := by decide
  have h2 : isAccessLine "Download complete. Extracting..." = false := by decide
  have h3 : isAccessLine "Extraction complete." = false := by decide
  refine ⟨?_, ?_, ?_, ?_⟩
  · rw [hout]
    simp [List.filter_cons, h1, h2, h3, isAccessLine_append]
  · rw [hout]
    rfl
  · intro hflag
    rw [hflag]
    exact accessMessage_true_contains o.resolvedIp cfg.port
  · intro hflag
    rw [hflag]
    exact accessMessage_false_contains o.resolvedIp cfg.port

/-- **C7 (witness).** Concrete instance with `--host` set: one access line,
containing the resolved address `192.168.1.7`. -/
theorem C7_access_message_witness :
    ((run exCfgHost okOracle []).stdout.filter isAccessLine).length = 1 ∧
    (run exCfgHost okOracle []).stdout.getLast? =
      some ("LiteChat is running at " ++
        accessMessage exCfgHost.hostFlag okOracle.resolvedIp exCfgHost.port) ∧
    (exCfgHost.hostFlag = true →
      strContains (accessMessage exCfgHost.hostFlag okOracle.resolvedIp
        exCfgHost.port) okOracle.resolvedIp = true) ∧
    (exCfgHost.hostFlag = false →
      strContains (accessMessage exCfgHost.hostFlag okOracle.resolvedIp
        exCfgHost.port) "localhost" = true) :=
  C7_access_message exCfgHost okOracle [] [80, 75]
    [("/index.html", Node.file [60, 104])] rfl rfl rfl

/-- **C8 (counterexample).** A fully successful run on a fresh working
directory whose downloaded archive is a valid *empty* zip leaves the
working directory empty: the claim's "non-empty" clause fails as stated. -/
theorem C8_counterexample :
    (run exCfg emptyZipOracle []).result = RunResult.serving "localhost" 3000 ∧
    (run exCfg emptyZipOracle []).finalFs = [] := by
  exact ⟨rfl, by decide⟩

/-- **C8 (amended).** For every successful run, afterward the working
directory exists and the archive file is absent; the directory is moreover
non-empty provided the archive contained at least one entry whose name is
not the archive's own name (as every real release does). -/
theorem C8_success_state (cfg : Config) (o : Oracle) (fs0 : FS)
    (b : List Nat) (entries : List (String × Node)) (p : String) (n : Node)
    (hd : o.download = DownloadOutcome.ok b)
    (he : o.extract = ExtractOutcome.ok entries)
    (hb : o.bindOk = true)
    (hm : (p, n) ∈ entries) (hp : p ≠ zipName) :
    (run cfg o fs0).workdirMade = true ∧
    pathExists (run cfg o fs0).finalFs p = true ∧
    (run cfg o fs0).finalFs ≠ [] ∧
    pathExists (run cfg o fs0).finalFs zipName = false := by
  have hfs : (run cfg o fs0).finalFs =
      FS.remove (FS.writeAll (FS.write fs0 zipName (Node.file b)) entries)
        zipName := by
    unfold run
    rw [hd, he, hb]
    rfl
  have hmade : (run cfg o fs0).workdirMade = true := by
    unfold run
    rw [hd, he, hb]
    rfl
  have hpe : pathExists (run cfg o fs0).finalFs p = true := by
    rw [hfs]
    unfold pathExists
    rw [FS.lookup_remove_ne _ hp]
    exact pathExists_writeAll_of_mem entries p n hm
      (FS.write fs0 zipName (Node.file b))
  refine ⟨hmade, hpe, ?_, ?_⟩
  · intro hnil
    rw [hnil] at hpe
    simp [pathExists, FS.lookup] at hpe
  · rw [hfs]
    exact pathExists_remove_self _ _

/-- **C8 (witness).** Concrete instance: the archive holds `/index.html`;
after the stage the directory contains it and no archive file. -/
theorem C8_success_state_witness :
    (run exCfg okOracle []).workdirMade = true ∧
    pathExists (run exCfg okOracle []).finalFs "/index.html" = true ∧
    (run exCfg okOracle []).finalFs ≠ [] ∧
    pathExists (run exCfg okOracle []).finalFs zipName = false :=
  C8_success_state exCfg okOracle [] [80, 75]
    [("/index.html", Node.file [60, 104])] "/index.html"
    (Node.file [60, 104]) rfl rfl rfl (by decide) (by decide)

/-- A filesystem holding a directory `/d` and the entry document; used to
exhibit the behaviour of the SPA fallback on directory paths. -/
def dirFS : FS :=
  [("/d", Node.dir), ("/index.html", Node.file [60, 104, 116, 109, 108, 62])]

theorem spaRewrite_index (fs : FS) :
    spaRewrite fs "/index.html" = "/index.html" := by
  unfold spaRewrite
  by_cases h : pathExists fs "/index.html" = true
  · simp [h]
  · simp [h]

/-- **C1 (counterexample).** The SPA fallback tests `os.path.exists`, which
is also true for directories: the request `/d` in `dirFS` names no existing
*file*, yet it is not rewritten to `/index.html` and its response (the
directory response for `/d`) differs from the response to `/index.html`. -/
theorem C1_counterexample :
    fileAt dirFS "/d" = none ∧
    spaRewrite dirFS "/d" ≠ "/index.html" ∧
    spaDoGET dirFS "/d" ≠ spaDoGET dirFS "/index.html" := by
  decide

/-- **C1 (amended).** For every GET request whose path does not correspond
to any existing filesystem entry (file *or* directory) under the document
root, the handler rewrites the request to `/index.html`, so the response
has the same content as a request for `/index.html`. -/
theorem C1_spa_fallback (fs : FS) (p : String)
    (h : pathExists fs p = false) :
    spaRewrite fs p = "/index.html" ∧
    spaDoGET fs p = spaDoGET fs "/index.html" := by
  have hr : spaRewrite fs p = "/index.html" := by
    unfold spaRewrite
    simp [h]
  refine ⟨hr, ?_⟩
  unfold spaDoGET
  rw [hr, spaRewrite_index]

/-- **C1 (witness).** Concrete instance: in `dirFS` the missing path
`/nope` is rewritten and served the entry document. -/
theorem C1_spa_fallback_witness :
    spaRewrite dirFS "/nope" = "/index.html" ∧
    spaDoGET dirFS "/nope" = spaDoGET dirFS "/index.html" :=
  C1_spa_fallback dirFS "/nope" (by decide)

/-- **C2.** For every GET request whose path corresponds to an existing
regular file, the handler leaves the path unchanged and the server responds
with that file's exact bytes. -/
theorem C2_existing_file_served (fs : FS) (p : String) (c : List Nat)
    (h : fileAt fs p = some c) :
    spaRewrite fs p = p ∧ spaDoGET fs p = HttpResponse.fileBytes c := by
  have hl : FS.lookup fs p = some (Node.file c) := by
    unfold fileAt at h
    cases hk : FS.lookup fs p with
    | none => rw [hk] at h; exact absurd h (by simp)
    | some n =>
      cases n with
      | file b => rw [hk] at h; simp at h; rw [h]
      | dir => rw [hk] at h; exact absurd h (by simp)
  have he : pathExists fs p = true := by
    unfold pathExists
    rw [hl]
    rfl
  have hr : spaRewrite fs p = p := by
    unfold spaRewrite
    simp [he]
  refine ⟨hr, ?_⟩
  unfold spaDoGET
  rw [hr]
  unfold simpleDoGET
  rw [hl]

/-- **C2 (witness).** Concrete instance: `/index.html` in `dirFS` is served
its own bytes with the path unchanged. -/
theorem C2_existing_file_served_witness :
    spaRewrite dirFS "/index.html" = "/index.html" ∧
    spaDoGET dirFS "/index.html" =
      HttpResponse.fileBytes [60, 104, 116, 109, 108, 62] :=
  C2_existing_file_served dirFS "/index.html" [60, 104, 116, 109, 108, 62]
    (by decide)

/-- **C10.** The existence check of the SPA fallback is path existence, not
file existence: a GET request whose path is an existing directory is not
rewritten and is delegated as-is, yielding the directory-determined
response rather than the root entry document. -/
theorem C10_directory_not_rewritten (fs : FS) (p : String)
    (h : FS.lookup fs p = some Node.dir) :
    spaRewrite fs p = p ∧ spaDoGET fs p = HttpResponse.dirResponse p := by
  have he : pathExists fs p = true := by
    unfold pathExists
    rw [h]
    rfl
  have hr : spaRewrite fs p = p := by
    unfold spaRewrite
    simp [he]
  refine ⟨hr, ?_⟩
  unfold spaDoGET
  rw [hr]
  unfold simpleDoGET
  rw [h]

/-- **C10 (witness).** Concrete instance: the directory `/d` in `dirFS` is
delegated as-is. -/
theorem C10_directory_not_rewritten_witness :
    spaRewrite dirFS "/d" = "/d" ∧
    spaDoGET dirFS "/d" = HttpResponse.dirResponse "/d" :=
  C10_directory_not_rewritten dirFS "/d" (by decide)

end LiteChat
